import Mathlib

/-!
Verification of `mochad_dispatch.py` against its specification.

The development shallowly embeds the program:

* `parse_mochad_line` embeds `MochadClient.parse_mochad_line` (Python string
  slicing is modelled by `pySlice` / `pySliceFrom` over the list of
  characters, which like Python slicing is total and clamps out-of-range
  indices).
* `dispatch_message` embeds `MochadClient.dispatch_message`; the fallible
  I/O (`aiohttp.post` and `response.release()`) is passed in as a
  `PostResult` value, and the `try/except Exception` block becomes the
  total match on that value.
* The connection/read loop of `MochadClient.worker` is embedded as a
  small-step machine: `step` consumes one environment event (a pass through
  the connect logic, one received line, or end-of-stream) and produces the
  next `WState` plus the observable `Action`s (sleeps, log lines, connect
  attempts, spawned dispatches).  `run` folds `step` over an event trace.
* `initEntryPoint` embeds the entry-point normalisation in
  `MochadClient.__init__`; Python's `entry_point[-1]` raises on the empty
  string, modelled by `Option`.
-/

namespace MochadDispatch

/-- Python slice `s[a:b]` (for `0 ≤ a ≤ b`) on a string: code points from
index `a` (inclusive) to `b` (exclusive), clamped to the string length. -/
def pySlice (s : String) (a b : Nat) : String :=
  ((s.toList.drop a).take (b - a)).asString

/-- Python slice `s[a:]`: code points from index `a` to the end. -/
def pySliceFrom (s : String) (a : Nat) : String :=
  (s.toList.drop a).asString

/-- The whitespace characters stripped by Python's `str.rstrip()` that can
occur in a decoded network line (ASCII whitespace). -/
def pyIsSpace (c : Char) : Bool :=
  c = ' ' || c = '\t' || c = '\n' || c = '\r' || c = '\x0b' || c = '\x0c'

/-- Python `line.rstrip()`: remove trailing whitespace. -/
def pyRstrip (s : String) : String :=
  ((s.toList.reverse.dropWhile pyIsSpace).reverse).asString

/-- Embeds `MochadClient.parse_mochad_line` (src/mochad_dispatch.py lines
29-39): bail out with `('', '')` unless `line[15:23] == 'Rx RFSEC'`,
otherwise return `(line[30:38], line[45:])`. -/
def parse_mochad_line (line : String) : String × String :=
  if pySlice line 15 23 ≠ "Rx RFSEC" then ("", "")
  else (pySlice line 30 38, pySliceFrom line 45)

/-- The `Event | none` boundary of the spec: the worker dispatches the pair
returned by `parse_mochad_line` exactly when both components are non-empty
(the `if addr and func:` guard, src/mochad_dispatch.py line 125). -/
def eventOf (line : String) : Option (String × String) :=
  let p := parse_mochad_line line
  if p.1 ≠ "" ∧ p.2 ≠ "" then some p else none

/-- A line long enough to contain the protocol tag, the address field and a
non-empty function field: tag needs indices up to 22, address up to 37, and
the function field starts at index 45, so 46 characters are required. -/
def wellFormed (line : String) : Bool :=
  pySlice line 15 23 = "Rx RFSEC" && 46 ≤ line.length

/-- A line whose tag field does not match: `parse_mochad_line` ignores it. -/
def nonMatching (line : String) : Bool :=
  pySlice line 15 23 ≠ "Rx RFSEC"

theorem length_asString (l : List Char) : l.asString.length = l.length := by
  simp [String.length, List.asString]

theorem toList_asString (l : List Char) : l.asString.toList = l := by
  simp [List.asString, String.toList]

theorem wellFormed_parse (line : String) (h : wellFormed line = true) :
    parse_mochad_line line = (pySlice line 30 38, pySliceFrom line 45) ∧
      pySlice line 30 38 ≠ "" ∧ pySliceFrom line 45 ≠ "" := by
  rw [wellFormed, Bool.and_eq_true, decide_eq_true_eq, decide_eq_true_eq] at h
  obtain ⟨htag, hlen⟩ := h
  have hlen' : 46 ≤ line.toList.length := hlen
  have htag' : ¬ (pySlice line 15 23 ≠ "Rx RFSEC") := fun hc => hc htag
  refine ⟨by rw [parse_mochad_line, if_neg htag'], ?_, ?_⟩
  · intro hcontra
    have : (pySlice line 30 38).length = 0 := by rw [hcontra]; rfl
    rw [pySlice, length_asString, List.length_take, List.length_drop] at this
    omega
  · intro hcontra
    have : (pySliceFrom line 45).length = 0 := by rw [hcontra]; rfl
    rw [pySliceFrom, length_asString, List.length_drop] at this
    omega

theorem wellFormed_eventOf (line : String) (h : wellFormed line = true) :
    eventOf line = some (pySlice line 30 38, pySliceFrom line 45) := by
  obtain ⟨hp, ha, hf⟩ := wellFormed_parse line h
  simp [eventOf, hp, ha, hf]

theorem nonMatching_eventOf (line : String) (h : nonMatching line = true) :
    eventOf line = none := by
  rw [nonMatching, decide_eq_true_eq] at h
  simp [eventOf, parse_mochad_line, h]

/-- C5: for every line whose characters at offsets 15..22 equal `Rx RFSEC`
and that is long enough (≥ 46 chars) to contain all fields, parsing yields
an event whose address is the substring at offsets 30..37 and whose
function is the substring from offset 45 to end-of-line, regardless of the
timestamp field's content. -/
theorem parse_wellformed_extracts (line : String)
    (htag : pySlice line 15 23 = "Rx RFSEC") (hlen : 46 ≤ line.length) :
    parse_mochad_line line
        = (((line.toList.drop 30).take 8).asString, (line.toList.drop 45).asString) ∧
      eventOf line
        = some (((line.toList.drop 30).take 8).asString, (line.toList.drop 45).asString) := by
  have hw : wellFormed line = true := by
    rw [wellFormed, Bool.and_eq_true, decide_eq_true_eq, decide_eq_true_eq]
    exact ⟨htag, hlen⟩
  obtain ⟨hp, _, _⟩ := wellFormed_parse line hw
  have he := wellFormed_eventOf line hw
  exact ⟨hp, he⟩

/-- Witness for C5, evaluating the spec's concrete scenario: the sample
line parses to address `21:26:80` and function `Contact_alert_min_DS10A`. -/
theorem parse_wellformed_extracts_witness :
    pySlice "09/22 15:39:07 Rx RFSEC Addr: 21:26:80 Func: Contact_alert_min_DS10A" 15 23
        = "Rx RFSEC" ∧
      46 ≤ "09/22 15:39:07 Rx RFSEC Addr: 21:26:80 Func: Contact_alert_min_DS10A".length ∧
      parse_mochad_line "09/22 15:39:07 Rx RFSEC Addr: 21:26:80 Func: Contact_alert_min_DS10A"
        = ("21:26:80", "Contact_alert_min_DS10A") := by
  refine ⟨by decide, by decide, ?_⟩
  have h := (parse_wellformed_extracts
    "09/22 15:39:07 Rx RFSEC Addr: 21:26:80 Func: Contact_alert_min_DS10A"
    (by decide) (by decide)).1
  rw [h]
  decide

/-- C6: a line whose characters at offsets 15..22 differ from `Rx RFSEC`
parses to the blank pair, hence produces no event and zero dispatches. -/
theorem parse_nonmatching_none (line : String)
    (h : pySlice line 15 23 ≠ "Rx RFSEC") :
    parse_mochad_line line = ("", "") ∧ eventOf line = none := by
  refine ⟨by rw [parse_mochad_line, if_pos h], ?_⟩
  exact nonMatching_eventOf line (by rw [nonMatching, decide_eq_true_eq]; exact h)

/-- Witness for C6 at one of the daemon's other message classes. -/
theorem parse_nonmatching_none_witness :
    pySlice "09/22 15:39:07 Tx PL HouseUnit: A1" 15 23 ≠ "Rx RFSEC" ∧
      parse_mochad_line "09/22 15:39:07 Tx PL HouseUnit: A1" = ("", "") ∧
      eventOf "09/22 15:39:07 Tx PL HouseUnit: A1" = none := by
  refine ⟨by decide, ?_⟩
  have h := parse_nonmatching_none "09/22 15:39:07 Tx PL HouseUnit: A1" (by decide)
  exact h

/-- C7: parsing is total — it returns a pair of strings for every input,
the embedding's slices being clamped exactly as Python slicing is — and
any line too short to contain tag, address and function fields (fewer than
46 characters) yields no event. -/
theorem parse_total_short_lines_none (line : String) :
    (∃ addr func, parse_mochad_line line = (addr, func)) ∧
      (line.length ≤ 45 → eventOf line = none) := by
  refine ⟨⟨_, _, rfl⟩, fun hlen => ?_⟩
  have hfunc : pySliceFrom line 45 = "" := by
    rw [pySliceFrom, List.drop_eq_nil_of_le]
    · rfl
    · exact hlen
  rw [eventOf, parse_mochad_line]
  by_cases htag : pySlice line 15 23 ≠ "Rx RFSEC"
  · rw [if_pos htag]; simp
  · rw [if_neg htag]; simp [hfunc]

/-- Witness for C7 at a short line that nevertheless begins like a real
mochad timestamp. -/
theorem parse_total_short_lines_none_witness :
    "09/22 15:39:07 Rx RFSEC".length ≤ 45 ∧ eventOf "09/22 15:39:07 Rx RFSEC" = none :=
  ⟨by decide, (parse_total_short_lines_none "09/22 15:39:07 Rx RFSEC").2 (by decide)⟩

/-! ### The event dispatcher (`MochadClient.dispatch_message`) -/

/-- UTF-8 encoding of one code point, as Python's `str.encode('utf-8')`
performs byte by byte before percent-encoding. -/
def encodeChar (c : Char) : List Nat :=
  let n := c.toNat
  if n < 0x80 then [n]
  else if n < 0x800 then [0xC0 + n / 0x40, 0x80 + n % 0x40]
  else if n < 0x10000 then
    [0xE0 + n / 0x1000, 0x80 + (n / 0x40) % 0x40, 0x80 + n % 0x40]
  else
    [0xF0 + n / 0x40000, 0x80 + (n / 0x1000) % 0x40, 0x80 + (n / 0x40) % 0x40, 0x80 + n % 0x40]

/-- The bytes `urllib.parse.quote` leaves unescaped with its default
`safe='/'`: ASCII letters, digits, `_.-~` and `/`. -/
def quoteSafe (b : Nat) : Bool :=
  (0x41 ≤ b && b ≤ 0x5A) || (0x61 ≤ b && b ≤ 0x7A) || (0x30 ≤ b && b ≤ 0x39) ||
    b = 0x5F || b = 0x2E || b = 0x2D || b = 0x7E || b = 0x2F

/-- Upper-case hexadecimal digit, as `urllib.parse.quote` emits. -/
def hexDigit (n : Nat) : Char :=
  if n < 10 then Char.ofNat (0x30 + n) else Char.ofNat (0x41 + n - 10)

/-- Percent-encode one byte (or keep it, when safe). -/
def quoteByte (b : Nat) : List Char :=
  if quoteSafe b then [Char.ofNat b] else ['%', hexDigit (b / 16), hexDigit (b % 16)]

/-- Embeds `urllib.parse.quote(s)` (default `safe='/'`): UTF-8 encode,
then percent-encode every unsafe byte with upper-case hex. -/
def urlQuote (s : String) : String :=
  ((s.toList.flatMap encodeChar).flatMap quoteByte).asString

/-- One outbound HTTP request as `aiohttp.post` is invoked
(src/mochad_dispatch.py lines 70-73). -/
structure HttpRequest where
  method : String
  url : String
  headers : List (String × String)
  body : String
deriving DecidableEq, Repr

/-- Outcome of the fallible I/O inside the `try` block of
`dispatch_message`: either `aiohttp.post` raised, or it returned a
response with the given status, after which `response.release()` may
itself have raised (`releaseExn`). -/
inductive PostResult where
  | exn (e : String)
  | resp (status : Nat) (releaseExn : Option String)
deriving DecidableEq, Repr

/-- Result of one `dispatch_message` invocation: the single request it
issued, the `fail_msg` variable at the end of the body, and the log lines
it emitted. -/
structure DispatchResult where
  requests : List HttpRequest
  fail_msg : String
  logLines : List String
deriving DecidableEq, Repr

/-- Embeds `MochadClient.dispatch_message` (src/mochad_dispatch.py lines
60-84).  `dispatch_time` stands for `datetime.now(pytz.UTC).isoformat()`
(taken at dispatch time, not from the wire) and `pr` for the outcome of
the awaited I/O.  The `try/except Exception` block becomes the total
match on `pr`: an exception from `post` or from `release` overwrites
`fail_msg` with `Caught exception: ...`; otherwise a non-200 status sets
`HTTP status ...`; `fail_msg` empty means success and nothing is logged. -/
def dispatch_message (entry_point addr func dispatch_time : String)
    (pr : PostResult) : DispatchResult :=
  let post_data := "dispatch_time=" ++ urlQuote dispatch_time ++ ";func=" ++ func
  let req : HttpRequest :=
    { method := "POST"
      url := entry_point ++ addr
      headers := [("content-type", "application/x-www-form-urlencoded")]
      body := post_data }
  let fail_msg :=
    match pr with
    | .exn e => "Caught exception: " ++ e
    | .resp status releaseExn =>
      match releaseExn with
      | some e => "Caught exception: " ++ e
      | none => if status ≠ 200 then "HTTP status " ++ toString status else ""
  let logLines :=
    if fail_msg ≠ "" then
      ["dispatch failed: " ++ fail_msg ++ " epoch time " ++ dispatch_time ++
        " address " ++ addr ++ " func " ++ func]
    else []
  { requests := [req], fail_msg := fail_msg, logLines := logLines }

theorem string_append_ne_empty (s t : String) (h : s.length ≠ 0) : s ++ t ≠ "" := by
  intro hc
  have h2 := congrArg String.length hc
  have h0 : ("" : String).length = 0 := rfl
  rw [String.length_append, h0] at h2
  omega

theorem dispatch_fail_msg_eq (ep addr fn dt : String) (pr : PostResult) :
    (dispatch_message ep addr fn dt pr).fail_msg =
      (match pr with
        | .exn e => "Caught exception: " ++ e
        | .resp _ (some e) => "Caught exception: " ++ e
        | .resp status none =>
            if status ≠ 200 then "HTTP status " ++ toString status else "") := by
  cases pr with
  | exn e => rfl
  | resp s r => cases r <;> rfl

/-- C8: every dispatch issues exactly one request and resolves to an
outcome; `fail_msg` is empty (success, nothing logged) exactly when the
response came back with status 200 and released cleanly, and any non-200
status or exception from the awaited I/O yields a non-empty failure
reason which is logged; the outcome is a pure function of the dispatch's
own inputs, so no other event's state is touched. -/
theorem dispatch_outcome_classification (ep addr fn dt : String) (pr : PostResult) :
    (dispatch_message ep addr fn dt pr).requests.length = 1 ∧
      ((dispatch_message ep addr fn dt pr).fail_msg = "" ↔ pr = PostResult.resp 200 none) ∧
      ((dispatch_message ep addr fn dt pr).logLines = []
        ↔ (dispatch_message ep addr fn dt pr).fail_msg = "") := by
  have hfm := dispatch_fail_msg_eq ep addr fn dt pr
  have hcaught : ∀ e : String, "Caught exception: " ++ e ≠ "" := fun e =>
    string_append_ne_empty _ e (by decide)
  have hstatus : ∀ n : Nat, "HTTP status " ++ toString n ≠ "" := fun n =>
    string_append_ne_empty _ _ (by decide)
  have hll : (dispatch_message ep addr fn dt pr).logLines
      = if (dispatch_message ep addr fn dt pr).fail_msg ≠ "" then
          ["dispatch failed: " ++ (dispatch_message ep addr fn dt pr).fail_msg ++
            " epoch time " ++ dt ++ " address " ++ addr ++ " func " ++ fn]
        else [] := rfl
  have hlog : (dispatch_message ep addr fn dt pr).logLines = []
      ↔ (dispatch_message ep addr fn dt pr).fail_msg = "" := by
    by_cases hf : (dispatch_message ep addr fn dt pr).fail_msg = ""
    · rw [hll, if_neg (fun hcon => hcon hf)]
      simp [hf]
    · rw [hll, if_pos hf]
      simp [hf]
  refine ⟨rfl, ?_, hlog⟩
  rw [hfm]
  cases pr with
  | exn e => simp [hcaught e]
  | resp s r =>
    cases r with
    | some e => simp [hcaught e]
    | none =>
      by_cases hs : s = 200
      · simp [hs]
      · simp [hs, hstatus s]

/-- C9: the single outbound request of a dispatch is a POST to the
entry-point base concatenated with the event's address, carries the
form-urlencoded content type, and its body is the `dispatch_time` field
holding the percent-encoded timestamp and the `func` field holding the
raw status label, separated by `;`; concretely, percent-encoding an
ISO-8601 UTC timestamp escapes its `:` and `+` characters. -/
theorem dispatch_request_shape :
    (∀ (ep addr fn dt : String) (pr : PostResult),
      (dispatch_message ep addr fn dt pr).requests =
        [{ method := "POST"
           url := ep ++ addr
           headers := [("content-type", "application/x-www-form-urlencoded")]
           body := "dispatch_time=" ++ urlQuote dt ++ ";func=" ++ fn }]) ∧
      urlQuote "2015-09-22T15:39:07.123456+00:00"
        = "2015-09-22T15%3A39%3A07.123456%2B00%3A00" := by
  refine ⟨fun ep addr fn dt pr => rfl, by decide⟩

/-! ### Entry-point normalisation (`MochadClient.__init__`) -/

/-- Embeds the entry-point handling of `MochadClient.__init__`
(src/mochad_dispatch.py lines 23-27): `entry_point[-1]` raises
`IndexError` on the empty string (modelled by `none`); otherwise a `/` is
appended unless the last character already is one. -/
def initEntryPoint (entry_point : String) : Option String :=
  match entry_point.toList.getLast? with
  | none => none
  | some c => if ¬ (c = '/') then some (entry_point ++ "/") else some entry_point

theorem toList_ne_nil (s : String) (h : s ≠ "") : s.toList ≠ [] := by
  intro hc
  apply h
  cases s with
  | mk data => cases data with
    | nil => rfl
    | cons a l => simp [String.toList, String.data] at hc

/-- C10: for every non-empty entry point the constructor stores a value
ending in `/`, appending one exactly when the input does not already end
with `/`; the empty entry point is rejected (the last-character lookup
raises). -/
theorem entry_point_normalized (s : String) (h : s ≠ "") :
    initEntryPoint "" = none ∧
      ∃ r, initEntryPoint s = some r ∧ r.toList.getLast? = some '/' ∧
        (s.toList.getLast? = some '/' → r = s) ∧
        (s.toList.getLast? ≠ some '/' → r = s ++ "/") := by
  refine ⟨rfl, ?_⟩
  have hnil := toList_ne_nil s h
  obtain ⟨c, hc⟩ : ∃ c, s.toList.getLast? = some c := by
    cases hlast : s.toList.getLast? with
    | none => exact absurd (List.getLast?_eq_none_iff.mp hlast) hnil
    | some c => exact ⟨c, rfl⟩
  by_cases hslash : c = '/'
  · subst hslash
    refine ⟨s, ?_, hc, fun _ => rfl, fun hcon => absurd hc hcon⟩
    rw [initEntryPoint, hc]
    simp
  · refine ⟨s ++ "/", ?_, ?_, ?_, fun _ => rfl⟩
    · rw [initEntryPoint, hc]
      simp [hslash]
    · have : (s ++ "/").toList = s.toList ++ ['/'] := by
        simp [String.toList, String.data_append]
      rw [this, List.getLast?_concat]
    · intro hs
      rw [hc] at hs
      exact absurd (Option.some.inj hs) hslash

/-- Witness for C10 at an entry point lacking the trailing slash. -/
theorem entry_point_normalized_witness :
    "http://example.com/api" ≠ "" ∧
      initEntryPoint "http://example.com/api" = some "http://example.com/api/" := by
  refine ⟨by decide, ?_⟩
  obtain ⟨-, r, hr, -, -, happ⟩ :=
    entry_point_normalized "http://example.com/api" (by decide)
  rw [hr, happ (by decide)]
  decide

/-! ### The worker loop (`MochadClient.worker`)

The connection/read loop is embedded as a small-step machine.  One
`Ev.attempt` event is a full pass through the top of the connection loop
(sleep when retrying, the 60-second check, then the `connect()` call whose
success or `OSError` the environment decides); `Ev.recvLine` is one
`readline()` returning data; `Ev.recvEof` is `readline()` returning the
empty string.  Times are the values `time.time()` returns at the two call
sites (line 95 and lines 103/131). -/

/-- Strict UTF-8 decoding of a byte sequence, as Python's
`bytes.decode("utf-8")`: continuation bytes are `0x80..0xBF`, overlong
encodings, surrogates and code points beyond `0x10FFFF` are rejected. -/
def contOk (b : Nat) : Bool := 0x80 ≤ b && b ≤ 0xBF

def decodeUtf8 : List Nat → Option (List Char)
  | [] => some []
  | b0 :: rest =>
    if b0 ≤ 0x7F then
      (decodeUtf8 rest).map (fun cs => Char.ofNat b0 :: cs)
    else if b0 ≤ 0xC1 then none
    else if b0 ≤ 0xDF then
      match rest with
      | b1 :: rest2 =>
        if contOk b1 then
          (decodeUtf8 rest2).map (fun cs => Char.ofNat ((b0 - 0xC0) * 0x40 + (b1 - 0x80)) :: cs)
        else none
      | [] => none
    else if b0 ≤ 0xEF then
      match rest with
      | b1 :: b2 :: rest3 =>
        if contOk b1 && contOk b2 then
          let cp := (b0 - 0xE0) * 0x1000 + (b1 - 0x80) * 0x40 + (b2 - 0x80)
          if cp < 0x800 then none
          else if 0xD800 ≤ cp && cp ≤ 0xDFFF then none
          else (decodeUtf8 rest3).map (fun cs => Char.ofNat cp :: cs)
        else none
      | _ => none
    else if b0 ≤ 0xF4 then
      match rest with
      | b1 :: b2 :: b3 :: rest4 =>
        if contOk b1 && contOk b2 && contOk b3 then
          let cp := (b0 - 0xF0) * 0x40000 + (b1 - 0x80) * 0x1000 +
            (b2 - 0x80) * 0x40 + (b3 - 0x80)
          if cp < 0x10000 || 0x10FFFF < cp then none
          else (decodeUtf8 rest4).map (fun cs => Char.ofNat cp :: cs)
        else none
      | _ => none
    else none

/-- `line.decode("utf-8")` on one raw line. -/
def decodeLine (raw : List Nat) : Option String :=
  (decodeUtf8 raw).map List.asString

/-- Where control sits in `MochadClient.worker`: about to run the top of
the connection loop, inside the read-from-network loop, stopped after the
60-second `break` (line 97), or stopped by an exception the worker does
not catch (the `except OSError` at line 101 is the only handler). -/
inductive Phase where
  | preConnect
  | reading
  | done
  | crashed
deriving DecidableEq, Repr

/-- Worker state: the phase and `self.reconnect_time` (`none` models the
falsy `0`, `some t` a `time.time()` value). -/
structure WState where
  phase : Phase
  reconnect_time : Option Int
deriving DecidableEq, Repr

/-- Environment events driving the worker. -/
inductive Ev where
  | attempt (tCheck : Int) (tFail : Int) (ok : Bool)
  | recvLine (raw : List Nat)
  | recvEof (tNow : Int)
deriving DecidableEq, Repr

/-- Observable actions of the worker. -/
inductive Action where
  | sleep (secs : Nat)
  | logError (msg : String)
  | logWarn (msg : String)
  | logInfo (msg : String)
  | connectAttempt
  | spawnDispatch (addr func : String)
deriving DecidableEq, Repr

/-- The state after `__init__`: `reconnect_time = 0`, about to enter the
connection loop. -/
def initState : WState := { phase := .preConnect, reconnect_time := none }

/-- One step of `MochadClient.worker` (src/mochad_dispatch.py lines
86-131).  On `attempt`: when `self.reconnect_time` is set the worker first
sleeps 1 s, then breaks with an error log if more than 60 s have passed
since the clock was set; otherwise `connect()` runs — on `OSError` the
clock is set (and the warning logged) only if it was unset, and on success
the clock is reset to 0 and the read loop is entered.  On `recvLine`: the
line is decoded (an undecodable line raises `UnicodeDecodeError`, which no
handler catches — the worker crashes), rstripped, parsed, and a dispatch
is spawned when address and function are both non-empty; the worker never
awaits the spawned task and its outcome never feeds back into the worker.
On `recvEof`: the read loop breaks, the clock is set and the warning
logged.  `done` and `crashed` are absorbing: nothing further happens. -/
def step (s : WState) (ev : Ev) : WState × List Action :=
  match s.phase, ev with
  | .preConnect, .attempt tCheck tFail ok =>
    match s.reconnect_time with
    | some t =>
      if tCheck - t > 60 then
        ({ s with phase := .done },
          [.sleep 1, .logError "Could not reconnect after 60s"])
      else if ok then
        ({ phase := .reading, reconnect_time := none },
          [.sleep 1, .connectAttempt, .logInfo "Connected to mochad"])
      else
        (s, [.sleep 1, .connectAttempt])
    | none =>
      if ok then
        ({ phase := .reading, reconnect_time := none },
          [.connectAttempt, .logInfo "Connected to mochad"])
      else
        ({ phase := .preConnect, reconnect_time := some tFail },
          [.connectAttempt, .logWarn "Could not connect to mochad. Retrying"])
  | .reading, .recvLine raw =>
    match decodeLine raw with
    | none => ({ s with phase := .crashed }, [])
    | some str =>
      let p := parse_mochad_line (pyRstrip str)
      if p.1 ≠ "" ∧ p.2 ≠ "" then (s, [.spawnDispatch p.1 p.2]) else (s, [])
  | .reading, .recvEof tNow =>
    ({ phase := .preConnect, reconnect_time := some tNow },
      [.logWarn "Lost connection to mochad. Retrying."])
  | _, _ => (s, [])

/-- Fold `step` over an event trace, accumulating the actions. -/
def run (s : WState) (evs : List Ev) : WState × List Action :=
  match evs with
  | [] => (s, [])
  | e :: rest =>
    let p := step s e
    let q := run p.1 rest
    (q.1, p.2 ++ q.2)

/-- All states a trace passes through (the start state included). -/
def statesOf (s : WState) (evs : List Ev) : List WState :=
  match evs with
  | [] => [s]
  | e :: rest => s :: statesOf (step s e).1 rest

/-- The address/function pairs handed to spawned dispatch tasks. -/
def dispatchesOf (acts : List Action) : List (String × String) :=
  acts.filterMap (fun a =>
    match a with
    | Action.spawnDispatch addr func => some (addr, func)
    | _ => none)

theorem step_absorbing (s : WState) (ev : Ev)
    (h : s.phase = Phase.done ∨ s.phase = Phase.crashed) : step s ev = (s, []) := by
  obtain ⟨ph, rt⟩ := s
  rcases h with h | h <;> (simp only at h; subst h; cases ev <;> rfl)

theorem run_absorbing (evs : List Ev) (s : WState)
    (h : s.phase = Phase.done ∨ s.phase = Phase.crashed) : run s evs = (s, []) := by
  induction evs with
  | nil => rfl
  | cons e rest ih =>
    rw [run, step_absorbing s e h]
    simpa using ih

theorem run_cons (s : WState) (e : Ev) (rest : List Ev) :
    run s (e :: rest) = ((run (step s e).1 rest).1, (step s e).2 ++ (run (step s e).1 rest).2) :=
  rfl

theorem step_done_logs (s : WState) (ev : Ev)
    (h1 : s.phase ≠ Phase.done) (h2 : (step s ev).1.phase = Phase.done) :
    Action.logError "Could not reconnect after 60s" ∈ (step s ev).2 := by
  obtain ⟨ph, rt⟩ := s
  cases ph with
  | preConnect =>
    cases ev with
    | attempt tCheck tFail ok =>
      cases rt with
      | none =>
        by_cases hok : ok = true <;> simp [step, hok] at h2
      | some t =>
        by_cases h60 : tCheck - t > 60
        · simp [step, h60]
        · by_cases hok : ok = true <;> simp [step, h60, hok] at h2
    | recvLine raw => simp [step] at h2
    | recvEof tNow => simp [step] at h2
  | reading =>
    cases ev with
    | attempt tCheck tFail ok => simp [step] at h2
    | recvLine raw =>
      cases hdl : decodeLine raw with
      | none => simp [step, hdl] at h2
      | some str =>
        by_cases hp : (parse_mochad_line (pyRstrip str)).1 ≠ "" ∧
            (parse_mochad_line (pyRstrip str)).2 ≠ "" <;>
          simp [step, hdl, hp] at h2
    | recvEof tNow => simp [step] at h2
  | done => exact absurd rfl h1
  | crashed => cases ev <;> simp [step] at h2

theorem step_crash_decode (s : WState) (ev : Ev)
    (h1 : s.phase ≠ Phase.crashed) (h2 : (step s ev).1.phase = Phase.crashed) :
    ∃ raw, ev = Ev.recvLine raw ∧ decodeLine raw = none := by
  obtain ⟨ph, rt⟩ := s
  cases ph with
  | preConnect =>
    cases ev with
    | attempt tCheck tFail ok =>
      cases rt with
      | none =>
        by_cases hok : ok = true <;> simp [step, hok] at h2
      | some t =>
        by_cases h60 : tCheck - t > 60
        · simp [step, h60] at h2
        · by_cases hok : ok = true <;> simp [step, h60, hok] at h2
    | recvLine raw => simp [step] at h2
    | recvEof tNow => simp [step] at h2
  | reading =>
    cases ev with
    | attempt tCheck tFail ok => simp [step] at h2
    | recvLine raw =>
      cases hdl : decodeLine raw with
      | none => exact ⟨raw, rfl, hdl⟩
      | some str =>
        by_cases hp : (parse_mochad_line (pyRstrip str)).1 ≠ "" ∧
            (parse_mochad_line (pyRstrip str)).2 ≠ "" <;>
          simp [step, hdl, hp] at h2
    | recvEof tNow => simp [step] at h2
  | done => cases ev <;> simp [step] at h2
  | crashed => exact absurd rfl h1

theorem run_done_logs (evs : List Ev) (s : WState)
    (h1 : s.phase ≠ Phase.done) (h2 : (run s evs).1.phase = Phase.done) :
    Action.logError "Could not reconnect after 60s" ∈ (run s evs).2 := by
  induction evs generalizing s with
  | nil => exact absurd h2 h1
  | cons e rest ih =>
    rw [run_cons] at h2 ⊢
    by_cases hmid : (step s e).1.phase = Phase.done
    · exact List.mem_append_left _ (step_done_logs s e h1 hmid)
    · exact List.mem_append_right _ (ih (step s e).1 hmid h2)

theorem run_crash_decode (evs : List Ev) (s : WState)
    (h1 : s.phase ≠ Phase.crashed) (h2 : (run s evs).1.phase = Phase.crashed) :
    ∃ raw, Ev.recvLine raw ∈ evs ∧ decodeLine raw = none := by
  induction evs generalizing s with
  | nil => exact absurd h2 h1
  | cons e rest ih =>
    rw [run_cons] at h2
    by_cases hmid : (step s e).1.phase = Phase.crashed
    · obtain ⟨raw, hev, hdl⟩ := step_crash_decode s e h1 hmid
      exact ⟨raw, by rw [hev] at *; exact List.mem_cons_self _ _, hdl⟩
    · obtain ⟨raw, hmem, hdl⟩ := ih (step s e).1 hmid h2
      exact ⟨raw, List.mem_cons_of_mem _ hmem, hdl⟩

/-- The invariant behind C2: inside the read loop `self.reconnect_time`
is the falsy `0`. -/
def clockUnsetWhileReading (s : WState) : Prop :=
  s.phase = Phase.reading → s.reconnect_time = none

theorem step_preserves_clock (s : WState) (ev : Ev)
    (h : clockUnsetWhileReading s) : clockUnsetWhileReading (step s ev).1 := by
  obtain ⟨ph, rt⟩ := s
  cases ph with
  | preConnect =>
    cases ev with
    | attempt tc tf ok =>
      cases rt with
      | none =>
        by_cases hok : ok = true <;> simp [clockUnsetWhileReading, step, hok]
      | some t =>
        by_cases h60 : tc - t > 60
        · simp [clockUnsetWhileReading, step, h60]
        · by_cases hok : ok = true <;> simp [clockUnsetWhileReading, step, h60, hok]
    | recvLine raw => simp [clockUnsetWhileReading, step]
    | recvEof tn => simp [clockUnsetWhileReading, step]
  | reading =>
    cases ev with
    | attempt tc tf ok => simpa [clockUnsetWhileReading, step] using h
    | recvLine raw =>
      cases hdl : decodeLine raw with
      | none => simp [clockUnsetWhileReading, step, hdl]
      | some str =>
        by_cases hp : (parse_mochad_line (pyRstrip str)).1 ≠ "" ∧
            (parse_mochad_line (pyRstrip str)).2 ≠ "" <;>
          · simp [clockUnsetWhileReading, step, hdl, hp]
            exact h rfl
    | recvEof tn => simp [clockUnsetWhileReading, step]
  | done => cases ev <;> simp [clockUnsetWhileReading, step]
  | crashed => cases ev <;> simp [clockUnsetWhileReading, step]

theorem statesOf_clock (evs : List Ev) (s : WState) (h : clockUnsetWhileReading s) :
    ∀ s' ∈ statesOf s evs, clockUnsetWhileReading s' := by
  induction evs generalizing s with
  | nil =>
    intro s' hs'
    simp [statesOf] at hs'
    subst hs'
    exact h
  | cons e rest ih =>
    intro s' hs'
    rw [statesOf] at hs'
    rcases List.mem_cons.mp hs' with h1 | h1
    · subst h1; exact h
    · exact ih (step s e).1 (step_preserves_clock s e h) s' h1

theorem step_enter_reading_clock (s : WState) (ev : Ev)
    (h1 : s.phase ≠ Phase.reading) (h2 : (step s ev).1.phase = Phase.reading) :
    (step s ev).1.reconnect_time = none := by
  obtain ⟨ph, rt⟩ := s
  cases ph with
  | preConnect =>
    cases ev with
    | attempt tc tf ok =>
      cases rt with
      | none =>
        by_cases hok : ok = true
        · simp [step, hok]
        · simp [step, hok] at h2
      | some t =>
        by_cases h60 : tc - t > 60
        · simp [step, h60] at h2
        · by_cases hok : ok = true
          · simp [step, h60, hok]
          · simp [step, h60, hok] at h2
    | recvLine raw => simp [step] at h2
    | recvEof tn => simp [step] at h2
  | reading => exact absurd rfl h1
  | done => cases ev <;> simp [step] at h2
  | crashed => cases ev <;> simp [step] at h2

theorem step_clock_set_iff (s : WState) (ev : Ev) (h : s.reconnect_time = none) :
    (step s ev).1.reconnect_time ≠ none ↔
      (s.phase = Phase.preConnect ∧ ∃ tc tf, ev = Ev.attempt tc tf false) ∨
        (s.phase = Phase.reading ∧ ∃ tn, ev = Ev.recvEof tn) := by
  obtain ⟨ph, rt⟩ := s
  simp only at h
  subst h
  cases ph with
  | preConnect =>
    cases ev with
    | attempt tc tf ok =>
      by_cases hok : ok = true
      · subst hok; simp [step]
      · rw [Bool.not_eq_true] at hok
        subst hok
        simp [step]
    | recvLine raw => simp [step]
    | recvEof tn => simp [step]
  | reading =>
    cases ev with
    | attempt tc tf ok => simp [step]
    | recvLine raw =>
      cases hdl : decodeLine raw with
      | none => simp [step, hdl]
      | some str =>
        by_cases hp : (parse_mochad_line (pyRstrip str)).1 ≠ "" ∧
            (parse_mochad_line (pyRstrip str)).2 ≠ "" <;>
          simp [step, hdl, hp]
    | recvEof tn => simp [step]
  | done => cases ev <;> simp [step]
  | crashed => cases ev <;> simp [step]

theorem nonMatching_parse (line : String) (h : nonMatching line = true) :
    parse_mochad_line line = ("", "") := by
  rw [nonMatching, decide_eq_true_eq] at h
  rw [parse_mochad_line, if_pos h]

theorem nonMatching_not_wellFormed (l : String) (h : nonMatching l = true) :
    wellFormed l = false := by
  rw [nonMatching, decide_eq_true_eq] at h
  rw [wellFormed]
  simp [h]

theorem dispatchesOf_append (a b : List Action) :
    dispatchesOf (a ++ b) = dispatchesOf a ++ dispatchesOf b :=
  List.filterMap_append a b _

/-- C4: feeding the read loop a sequence of lines in which every line is
either well formed (tag matching and fully laid out) or non-matching
produces exactly the dispatches of the well-formed lines, each carrying
the address/function pair parsed from its own line, in the order the lines
were read; the worker stays in the read loop throughout. -/
theorem read_loop_dispatch_sequence (raws : List (List Nat)) (lines : List String)
    (hdec : List.Forall₂ (fun raw line => decodeLine raw = some line) raws lines)
    (hclass : ∀ line ∈ lines,
      wellFormed (pyRstrip line) = true ∨ nonMatching (pyRstrip line) = true) :
    (run ⟨Phase.reading, none⟩ (raws.map Ev.recvLine)).1 = ⟨Phase.reading, none⟩ ∧
      dispatchesOf (run ⟨Phase.reading, none⟩ (raws.map Ev.recvLine)).2
        = ((lines.map pyRstrip).filter wellFormed).map
            (fun l => (pySlice l 30 38, pySliceFrom l 45)) := by
  induction hdec with
  | nil => exact ⟨rfl, rfl⟩
  | @cons raw line raws' lines' hhead htail ih =>
    have hclassTail : ∀ l ∈ lines',
        wellFormed (pyRstrip l) = true ∨ nonMatching (pyRstrip l) = true :=
      fun l hl => hclass l (List.mem_cons_of_mem _ hl)
    obtain ⟨ih1, ih2⟩ := ih hclassTail
    rcases hclass line (List.mem_cons_self _ _) with hw | hnm
    · obtain ⟨hp, ha, hf⟩ := wellFormed_parse (pyRstrip line) hw
      have hstep : step ⟨Phase.reading, none⟩ (Ev.recvLine raw)
          = (⟨Phase.reading, none⟩,
            [Action.spawnDispatch (pySlice (pyRstrip line) 30 38)
              (pySliceFrom (pyRstrip line) 45)]) := by
        simp [step, hhead, hp, ha, hf]
      constructor
      · rw [List.map_cons, run_cons, hstep]
        exact ih1
      · rw [List.map_cons, run_cons, hstep, dispatchesOf_append, ih2,
          List.map_cons, List.filter_cons, if_pos hw, List.map_cons]
        rfl
    · have hstep : step ⟨Phase.reading, none⟩ (Ev.recvLine raw)
          = (⟨Phase.reading, none⟩, []) := by
        simp [step, hhead, nonMatching_parse _ hnm]
      constructor
      · rw [List.map_cons, run_cons, hstep]
        exact ih1
      · rw [List.map_cons, run_cons, hstep, dispatchesOf_append, ih2,
          List.map_cons, List.filter_cons, if_neg]
        · rfl
        · rw [nonMatching_not_wellFormed _ hnm]
          simp

/-- Witness for C4: one well-formed line followed by one non-matching
line yields exactly the one dispatch of the well-formed line. -/
theorem read_loop_dispatch_sequence_witness :
    dispatchesOf (run ⟨Phase.reading, none⟩
        (([("09/22 15:39:07 Rx RFSEC Addr: 21:26:80 Func: Contact_alert_min_DS10A".toList.map
              Char.toNat),
            ("junk line".toList.map Char.toNat)]).map Ev.recvLine)).2
      = [("21:26:80", "Contact_alert_min_DS10A")] := by
  have h := read_loop_dispatch_sequence
    [("09/22 15:39:07 Rx RFSEC Addr: 21:26:80 Func: Contact_alert_min_DS10A".toList.map
        Char.toNat),
      ("junk line".toList.map Char.toNat)]
    ["09/22 15:39:07 Rx RFSEC Addr: 21:26:80 Func: Contact_alert_min_DS10A", "junk line"]
    (List.Forall₂.cons (by decide) (List.Forall₂.cons (by decide) List.Forall₂.nil))
    (by decide)
  rw [h.2]
  decide

/-- C1: whenever the reconnect clock is set (value `t`), the next pass
through the connection loop first sleeps 1 second — the connect attempt,
if any, comes only after that sleep — and if at the check more than 60
seconds have elapsed since `t`, the worker logs the exhaustion error and
breaks out: the pass makes no connect attempt, the state is `done`, and
no later pass ever makes a connect attempt again. -/
theorem reconnect_backoff_and_exhaustion (t tCheck tFail : Int) (ok : Bool) :
    ((step ⟨Phase.preConnect, some t⟩ (Ev.attempt tCheck tFail ok)).2.head?
        = some (Action.sleep 1)) ∧
      (tCheck - t ≤ 60 →
        (step ⟨Phase.preConnect, some t⟩ (Ev.attempt tCheck tFail ok)).2.get? 1
          = some Action.connectAttempt) ∧
      (tCheck - t > 60 →
        (step ⟨Phase.preConnect, some t⟩ (Ev.attempt tCheck tFail ok))
            = (⟨Phase.done, some t⟩,
              [Action.sleep 1, Action.logError "Could not reconnect after 60s"]) ∧
          Action.connectAttempt
            ∉ (step ⟨Phase.preConnect, some t⟩ (Ev.attempt tCheck tFail ok)).2 ∧
          ∀ evs : List Ev, Action.connectAttempt
            ∉ (run (step ⟨Phase.preConnect, some t⟩ (Ev.attempt tCheck tFail ok)).1 evs).2) := by
  by_cases h60 : tCheck - t > 60
  · have hstep : step ⟨Phase.preConnect, some t⟩ (Ev.attempt tCheck tFail ok)
        = (⟨Phase.done, some t⟩,
          [Action.sleep 1, Action.logError "Could not reconnect after 60s"]) := by
      simp [step, h60]
    have hmem : Action.connectAttempt
        ∉ [Action.sleep 1, Action.logError "Could not reconnect after 60s"] := by
      decide
    refine ⟨by rw [hstep]; rfl, fun hle => absurd h60 (by omega),
      fun _ => ⟨hstep, by rw [hstep]; exact hmem, ?_⟩⟩
    intro evs
    rw [hstep, run_absorbing evs ⟨Phase.done, some t⟩ (Or.inl rfl)]
    simp
  · have h60' : ¬ tCheck - t > 60 := h60
    by_cases hok : ok = true
    · subst hok
      have hstep : step ⟨Phase.preConnect, some t⟩ (Ev.attempt tCheck tFail true)
          = (⟨Phase.reading, none⟩,
            [Action.sleep 1, Action.connectAttempt, Action.logInfo "Connected to mochad"]) := by
        simp [step, h60']
      exact ⟨by rw [hstep]; rfl, fun _ => by rw [hstep]; rfl, fun hgt => absurd hgt h60⟩
    · rw [Bool.not_eq_true] at hok
      subst hok
      have hstep : step ⟨Phase.preConnect, some t⟩ (Ev.attempt tCheck tFail false)
          = (⟨Phase.preConnect, some t⟩, [Action.sleep 1, Action.connectAttempt]) := by
        simp [step, h60']
      exact ⟨by rw [hstep]; rfl, fun _ => by rw [hstep]; rfl, fun hgt => absurd hgt h60⟩

/-- Witness for C1 at a clock set at time 0 and a check at time 100. -/
theorem reconnect_backoff_and_exhaustion_witness :
    ((100 : Int) - 0 > 60) ∧
      ((step ⟨Phase.preConnect, some 0⟩ (Ev.attempt 100 100 false)).2.head?
        = some (Action.sleep 1)) ∧
      (step ⟨Phase.preConnect, some 0⟩ (Ev.attempt 100 100 false)).1.phase = Phase.done ∧
      Action.connectAttempt
        ∉ (step ⟨Phase.preConnect, some 0⟩ (Ev.attempt 100 100 false)).2 ∧
      Action.connectAttempt
        ∉ (run (step ⟨Phase.preConnect, some 0⟩ (Ev.attempt 100 100 false)).1
            [Ev.attempt 200 200 true]).2 := by
  have h := reconnect_backoff_and_exhaustion 0 100 100 false
  have h3 := h.2.2 (by decide)
  refine ⟨by decide, h.1, ?_, h3.2.1, h3.2.2 [Ev.attempt 200 200 true]⟩
  rw [h3.1]

/-- C2: a successful connect resets the reconnect clock to unset; every
reachable state inside the read loop has the clock unset; and from an
unset clock, one step sets the clock exactly when the connect attempt
fails or the stream reports end-of-file. -/
theorem reconnect_clock_lifecycle :
    (∀ (s : WState) (ev : Ev), s.phase ≠ Phase.reading →
        (step s ev).1.phase = Phase.reading → (step s ev).1.reconnect_time = none) ∧
      (∀ evs : List Ev, ∀ s' ∈ statesOf initState evs,
        s'.phase = Phase.reading → s'.reconnect_time = none) ∧
      (∀ (s : WState) (ev : Ev), s.reconnect_time = none →
        ((step s ev).1.reconnect_time ≠ none ↔
          (s.phase = Phase.preConnect ∧ ∃ tc tf, ev = Ev.attempt tc tf false) ∨
            (s.phase = Phase.reading ∧ ∃ tn, ev = Ev.recvEof tn))) := by
  refine ⟨step_enter_reading_clock, ?_, step_clock_set_iff⟩
  intro evs
  exact statesOf_clock evs initState (fun hcon => by simp [initState] at hcon)

/-- Witness for C2: a success at time 10 clears a clock set at 5, and a
failed attempt from a cleared clock sets it. -/
theorem reconnect_clock_lifecycle_witness :
    (step ⟨Phase.preConnect, some 5⟩ (Ev.attempt 10 10 true)).1.reconnect_time = none ∧
      (step initState (Ev.attempt 3 7 false)).1.reconnect_time ≠ none := by
  have h := reconnect_clock_lifecycle
  refine ⟨h.1 ⟨Phase.preConnect, some 5⟩ (Ev.attempt 10 10 true) (by decide) (by decide), ?_⟩
  exact (h.2.2 initState (Ev.attempt 3 7 false) rfl).mpr (Or.inl ⟨rfl, 3, 7, rfl⟩)

/-- Counterexample to C3 as stated: on the concrete trace "connect
succeeds, then `readline` returns the single byte `0xFF`", the
`line.decode(\x22utf-8\x22)` call raises `UnicodeDecodeError`; no handler in
`worker` catches it, so the worker terminates (state `crashed`) although
reconnect exhaustion was never signalled and no startup configuration
error occurred. -/
theorem worker_crashes_on_undecodable_line :
    (run initState [Ev.attempt 0 0 true, Ev.recvLine [255]]).1.phase = Phase.crashed ∧
      Phase.crashed ≠ Phase.done ∧
      Action.logError "Could not reconnect after 60s"
        ∉ (run initState [Ev.attempt 0 0 true, Ev.recvLine [255]]).2 := by
  decide

/-- C3 as amended: a dispatch's outcome never feeds back into the worker
(a step on a decodable line leaves the worker state unchanged — the
spawned task is never awaited), and besides reconnect exhaustion (which
is always signalled by the error log) and a startup configuration error,
the only way the worker terminates is an uncaught `UnicodeDecodeError`
from a received line that is not valid UTF-8; a stopped worker does
nothing further. -/
theorem worker_termination_modes :
    (∀ evs : List Ev, (run initState evs).1.phase = Phase.done →
        Action.logError "Could not reconnect after 60s" ∈ (run initState evs).2) ∧
      (∀ evs : List Ev, (run initState evs).1.phase = Phase.crashed →
        ∃ raw, Ev.recvLine raw ∈ evs ∧ decodeLine raw = none) ∧
      (∀ (s : WState) (raw : List Nat), decodeLine raw ≠ none →
        (step s (Ev.recvLine raw)).1 = s) ∧
      (∀ s : WState, s.phase = Phase.done ∨ s.phase = Phase.crashed →
        ∀ evs : List Ev, run s evs = (s, [])) := by
  refine ⟨fun evs => run_done_logs evs initState (by simp [initState]),
    fun evs => run_crash_decode evs initState (by simp [initState]), ?_,
    fun s h evs => run_absorbing evs s h⟩
  intro s raw hdl
  obtain ⟨ph, rt⟩ := s
  cases ph with
  | preConnect => rfl
  | reading =>
    cases hdec : decodeLine raw with
    | none => exact absurd hdec hdl
    | some str =>
      by_cases hp : (parse_mochad_line (pyRstrip str)).1 ≠ "" ∧
          (parse_mochad_line (pyRstrip str)).2 ≠ "" <;>
        simp [step, hdec, hp]
  | done => rfl
  | crashed => rfl

/-- Witness for the amended C3: the crash on the concrete trace really
stems from an undecodable line; a decodable line leaves the state
untouched; a stopped worker ignores further events. -/
theorem worker_termination_modes_witness :
    (∃ raw, Ev.recvLine raw ∈ [Ev.attempt 0 0 true, Ev.recvLine [255]] ∧
        decodeLine raw = none) ∧
      (step ⟨Phase.reading, none⟩ (Ev.recvLine [104, 105])).1 = ⟨Phase.reading, none⟩ ∧
      run ⟨Phase.done, some 3⟩ [Ev.attempt 9 9 true] = (⟨Phase.done, some 3⟩, []) := by
  refine ⟨worker_termination_modes.2.1 [Ev.attempt 0 0 true, Ev.recvLine [255]] (by decide),
    worker_termination_modes.2.2.1 ⟨Phase.reading, none⟩ [104, 105] (by decide),
    worker_termination_modes.2.2.2 ⟨Phase.done, some 3⟩ (Or.inl rfl) [Ev.attempt 9 9 true]⟩

end MochadDispatch
